import Mathlib

/-!
Verification development for the zido-ecom-tool synchronization engine.

The definitions below are shallow embeddings of the TypeScript source:

* `src/lib/woocommerce.ts` — the Remote-API transport (`sanitizeJsonResponse`,
  `extractPartialJsonData`, `fetchAll`, `getMockData`), the WordPress SQL
  helpers (`wpTable`), and the Direct-Datastore reconcilers
  (`syncOrdersIncremental`, `syncCustomersIncremental`);
* `src/server/sync/products-db.ts` — `syncProductsIncremental`;
* `src/server/sync/orchestrator.ts` — `runUnifiedSync`;
* `src/app/api/sync/background/route.ts` — the progress tracker and the
  start/poll endpoints (`POST`, `GET`, `performBackgroundSync`).

JavaScript strings are modelled as `List Char`, JavaScript numbers as `ℚ`
(with `Option ℚ` where `NaN`/`null` matters), and the external platform
function `JSON.parse` as a strict RFC-8259 parser `jsonParse` (numbers keep
their lexeme, which is all the claims need).  Database tables are lists of
rows; the unique indexes created by the Prisma migrations
(`*_storeId_wooId_key`, `order_items_orderId_wooId_key`) are modelled by
making `create` fail on a duplicate natural key, exactly as Prisma raises
`P2002` at run time.
-/

namespace Spec2Proof

abbrev Chars := List Char

/-! ## JSON values and a model of `JSON.parse` -/

/-- A JSON value.  Numbers keep their source lexeme: none of the verified
properties depends on numeric decoding, only on the shape of parsed data. -/
inductive Json where
  | null : Json
  | bool (b : Bool) : Json
  | num (lexeme : String) : Json
  | str (s : String) : Json
  | arr (elems : List Json) : Json
  | obj (fields : List (String × Json)) : Json
deriving Repr

/-- JSON insignificant whitespace (RFC 8259 `ws`). -/
def isJsonWs (c : Char) : Bool :=
  c = ' ' || c = '\n' || c = '\r' || c = '\t'

def skipJsonWs (cs : Chars) : Chars := cs.dropWhile isJsonWs

def hexVal? (c : Char) : Option Nat :=
  if '0' ≤ c ∧ c ≤ '9' then some (c.toNat - '0'.toNat)
  else if 'a' ≤ c ∧ c ≤ 'f' then some (c.toNat - 'a'.toNat + 10)
  else if 'A' ≤ c ∧ c ≤ 'F' then some (c.toNat - 'A'.toNat + 10)
  else none

/-- Parse the body of a JSON string literal (after the opening quote),
returning the decoded characters and the input after the closing quote. -/
def parseStringBody : Nat → Chars → Option (List Char × Chars)
  | 0, _ => none
  | _, [] => none
  | _ + 1, '"' :: rest => some ([], rest)
  | fuel + 1, '\\' :: e :: rest =>
    let cont (c : Char) (rs : Chars) : Option (List Char × Chars) :=
      (parseStringBody fuel rs).map (fun p => (c :: p.1, p.2))
    match e with
    | '"' => cont '"' rest
    | '\\' => cont '\\' rest
    | '/' => cont '/' rest
    | 'b' => cont '\x08' rest
    | 'f' => cont '\x0c' rest
    | 'n' => cont '\n' rest
    | 'r' => cont '\r' rest
    | 't' => cont '\t' rest
    | 'u' =>
      match rest with
      | a :: b :: c :: d :: rest2 =>
        match hexVal? a, hexVal? b, hexVal? c, hexVal? d with
        | some x, some y, some z, some w =>
          cont (Char.ofNat (((x * 16 + y) * 16 + z) * 16 + w)) rest2
        | _, _, _, _ => none
      | _ => none
    | _ => none
  | fuel + 1, c :: rest =>
    if c.val < 0x20 then none
    else (parseStringBody fuel rest).map (fun p => (c :: p.1, p.2))

/-- Lex a JSON number token (strict grammar: int, optional frac, optional
exp), returning the lexeme and the rest of the input. -/
def parseNumberLex (cs : Chars) : Option (List Char × Chars) :=
  let (sgn, cs1) : List Char × Chars :=
    match cs with
    | '-' :: r => (['-'], r)
    | _ => ([], cs)
  let intPart : Option (List Char × Chars) :=
    match cs1 with
    | '0' :: r => some (['0'], r)
    | c :: _ =>
      if c.isDigit then
        some (cs1.takeWhile Char.isDigit, cs1.dropWhile Char.isDigit)
      else none
    | [] => none
  match intPart with
  | none => none
  | some (ds, r1) =>
    let fracPart : Option (List Char × Chars) :=
      match r1 with
      | '.' :: r2 =>
        let fds := r2.takeWhile Char.isDigit
        if fds = [] then none
        else some ('.' :: fds, r2.dropWhile Char.isDigit)
      | _ => some ([], r1)
    match fracPart with
    | none => none
    | some (fs, r2) =>
      let expPart : Option (List Char × Chars) :=
        match r2 with
        | e :: r3 =>
          if e = 'e' ∨ e = 'E' then
            let (es, r4) : List Char × Chars :=
              match r3 with
              | '+' :: r5 => (['+'], r5)
              | '-' :: r5 => (['-'], r5)
              | _ => ([], r3)
            let eds := r4.takeWhile Char.isDigit
            if eds = [] then none
            else some (e :: (es ++ eds), r4.dropWhile Char.isDigit)
          else some ([], r2)
        | [] => some ([], r2)
      match expPart with
      | none => none
      | some (es, r3) => some (sgn ++ ds ++ fs ++ es, r3)

mutual

/-- Parse one JSON value (leading whitespace allowed). -/
def parseValue : Nat → Chars → Option (Json × Chars)
  | 0, _ => none
  | fuel + 1, cs =>
    match skipJsonWs cs with
    | 'n' :: 'u' :: 'l' :: 'l' :: r => some (.null, r)
    | 't' :: 'r' :: 'u' :: 'e' :: r => some (.bool true, r)
    | 'f' :: 'a' :: 'l' :: 's' :: 'e' :: r => some (.bool false, r)
    | '"' :: r => (parseStringBody fuel r).map (fun p => (.str (String.mk p.1), p.2))
    | '[' :: r => parseArrayItems fuel r
    | '\x7b' :: r => parseObjMembers fuel r
    | rest => (parseNumberLex rest).map (fun p => (.num (String.mk p.1), p.2))

/-- Parse the items of an array, positioned just after `[`. -/
def parseArrayItems : Nat → Chars → Option (Json × Chars)
  | 0, _ => none
  | fuel + 1, cs =>
    match skipJsonWs cs with
    | ']' :: r => some (.arr [], r)
    | rest => parseArrayRest fuel rest []

/-- Parse `value (, value)* ]`, accumulating the items seen so far. -/
def parseArrayRest : Nat → Chars → List Json → Option (Json × Chars)
  | 0, _, _ => none
  | fuel + 1, cs, acc =>
    match parseValue fuel cs with
    | none => none
    | some (v, r) =>
      match skipJsonWs r with
      | ',' :: r2 => parseArrayRest fuel r2 (acc ++ [v])
      | ']' :: r2 => some (.arr (acc ++ [v]), r2)
      | _ => none

/-- Parse the members of an object, positioned just after the open brace. -/
def parseObjMembers : Nat → Chars → Option (Json × Chars)
  | 0, _ => none
  | fuel + 1, cs =>
    match skipJsonWs cs with
    | '\x7d' :: r => some (.obj [], r)
    | rest => parseObjRest fuel rest []

/-- Parse `"key" : value (, "key" : value)*` followed by a close brace. -/
def parseObjRest : Nat → Chars → List (String × Json) → Option (Json × Chars)
  | 0, _, _ => none
  | fuel + 1, cs, acc =>
    match skipJsonWs cs with
    | '"' :: r =>
      match parseStringBody fuel r with
      | none => none
      | some (key, r1) =>
        match skipJsonWs r1 with
        | ':' :: r2 =>
          match parseValue fuel r2 with
          | none => none
          | some (v, r3) =>
            match skipJsonWs r3 with
            | ',' :: r4 => parseObjRest fuel r4 (acc ++ [(String.mk key, v)])
            | '\x7d' :: r4 => some (.obj (acc ++ [(String.mk key, v)]), r4)
            | _ => none
        | _ => none
    | _ => none

end

/-- Model of the platform function `JSON.parse`: strict JSON, the whole
input must be consumed (up to trailing whitespace); `none` models a thrown
`SyntaxError`. -/
def jsonParse (s : String) : Option Json :=
  match parseValue (s.data.length + 2) s.data with
  | some (v, r) => if skipJsonWs r = [] then some v else none
  | none => none

/-! ## `sanitizeJsonResponse` (woocommerce.ts lines 15–24) -/

/-- One `String.replace(/\\X/g, r)` pass: leftmost, non-overlapping
replacement of the two-character sequence backslash-`b` by `r`. -/
def replaceEsc (b r : Char) : Chars → Chars
  | [] => []
  | [c] => [c]
  | c1 :: c2 :: rest =>
    if c1 = '\\' ∧ c2 = b then r :: replaceEsc b r rest
    else c1 :: replaceEsc b r (c2 :: rest)

/-- The class `[\u0000-\u001F\u007F-\u009F]` of the final regex. -/
def isControlChar (c : Char) : Bool :=
  c.val ≤ 0x1F || (0x7F ≤ c.val && c.val ≤ 0x9F)

/-- The function `sanitizeJsonResponse`: the five sequential escape replacements followed
by control-character removal, exactly as chained in the source. -/
def sanitizeJsonResponse (s : String) : String :=
  let cs := replaceEsc '"' '"' s.data
  let cs := replaceEsc 'n' '\n' cs
  let cs := replaceEsc 't' '\t' cs
  let cs := replaceEsc 'r' '\r' cs
  let cs := replaceEsc '\\' '\\' cs
  String.mk (cs.filter (fun c => !isControlChar c))

/-! ## `extractPartialJsonData` (woocommerce.ts lines 29–107) -/

/-- Model of `text.indexOf(c, start)` (as `Option` instead of `-1`). -/
def indexOfFrom (cs : Chars) (c : Char) (start : Nat) : Option Nat :=
  ((cs.drop start).findIdx? (· = c)).map (start + ·)

/-- The characters skipped between candidate objects: whitespace and commas. -/
def isSkipChar (c : Char) : Bool :=
  c = ' ' || c = '\n' || c = '\r' || c = '\t' || c = ','

/-- Advance past whitespace and commas starting at index `i`. -/
def skipFrom (cs : Chars) (i : Nat) : Nat :=
  i + ((cs.drop i).takeWhile isSkipChar).length

/-- The brace-matching scan of `extractPartialJsonData`: starting at absolute
index `i` (with the remaining text as first argument), track `braceCount`,
`inString` and `escapeNext` exactly as the source loop does and return the
index where `braceCount` reaches `0`, or `none` if the text ends first. -/
def scanClose : Chars → Nat → Int → Bool → Bool → Option Nat
  | [], _, _, _, _ => none
  | c :: rest, i, braceCount, inString, escapeNext =>
    if escapeNext then scanClose rest (i + 1) braceCount inString false
    else if c = '\\' then scanClose rest (i + 1) braceCount inString true
    else if c = '"' then scanClose rest (i + 1) braceCount (!inString) escapeNext
    else if !inString then
      let braceCount :=
        if c = '\x7b' then braceCount + 1
        else if c = '\x7d' then braceCount - 1
        else braceCount
      if braceCount = 0 then some i
      else scanClose rest (i + 1) braceCount inString escapeNext
    else scanClose rest (i + 1) braceCount inString escapeNext

/-- The `while (currentPos < text.length)` loop of `extractPartialJsonData`:
skip separators, find the next open brace, scan for its matching close brace,
`JSON.parse` the candidate substring (skipping it when parsing fails), and
resume after it.  `fuel` only bounds the loop; `cs.length + 1` is enough
because the position strictly increases. -/
def extractLoop (cs : Chars) : Nat → Nat → List Json → List Json
  | 0, _, acc => acc
  | fuel + 1, currentPos, acc =>
    if cs.length ≤ currentPos then acc
    else
      let pos := skipFrom cs currentPos
      if cs.length ≤ pos then acc
      else
        match indexOfFrom cs '\x7b' pos with
        | none => acc
        | some startBrace =>
          match scanClose (cs.drop startBrace) startBrace 0 false false with
          | some endPos =>
            let jsonStr := String.mk ((cs.drop startBrace).take (endPos + 1 - startBrace))
            let acc :=
              match jsonParse jsonStr with
              | some o => acc ++ [o]
              | none => acc
            extractLoop cs fuel (endPos + 1) acc
          | none => extractLoop cs fuel (startBrace + 1) acc

/-- The function `extractPartialJsonData`: find the start of the array, then run the
object-recovery loop after the opening bracket. -/
def extractPartialJsonData (s : String) : List Json :=
  match indexOfFrom s.data '[' 0 with
  | none => []
  | some arrayStart => extractLoop s.data (s.data.length + 1) (arrayStart + 1) []

/-! ## `fetchAll` (woocommerce.ts lines 240–310) -/

/-- One HTTP response of the Remote-API transport: a non-success status, or a
success whose body text is `body`. -/
inductive PageResp where
  | httpErr (status : Nat)
  | ok (body : String)

/-- The source constant `perPage = 50`. -/
def perPage : Nat := 50

/-- The `while (!done)` loop of `fetchAll`: `pages` are the successive
responses the server returns, `out` is the accumulator, `mock` is
`getMockData(path)` for the path being fetched (the fixture dataset the
function falls back to on 404/401).  An `Except.error` models a thrown
exception; running out of `pages` models a server that never answers and is
unreachable in every run considered below. -/
def fetchAllGo (mock : List Json) : List PageResp → List Json → Except String (List Json)
  | [], _ => .error "no response from server"
  | resp :: rest, out =>
    match resp with
    | .httpErr status =>
      if status = 404 ∨ status = 401 then .ok mock
      else .error "Woo fetch error"
    | .ok body =>
      match jsonParse (sanitizeJsonResponse body) with
      | some (.arr data) =>
        if data.length < perPage then .ok (out ++ data)
        else fetchAllGo mock rest (out ++ data)
      | some v =>
        -- `JSON.parse` succeeded on a non-array: `concat` appends the single
        -- value, and `data.length < perPage` is `undefined < 50` = false, so
        -- the loop continues.
        fetchAllGo mock rest (out ++ [v])
      | none =>
        let recovered := extractPartialJsonData body
        if 0 < recovered.length then
          if recovered.length < perPage then .ok (out ++ recovered)
          else fetchAllGo mock rest (out ++ recovered)
        else .ok out

/-- The entry point `fetchAll` begins with an empty accumulator. -/
def fetchAll (mock : List Json) (pages : List PageResp) : Except String (List Json) :=
  fetchAllGo mock pages []

/-! ## Claims C2, C9, C10 — the Remote-API transport -/

/-- C2 (counterexample).  The claim says a corrupted array body holding N
syntactically complete objects followed by a truncated (N+1)th object yields
exactly N ingested records.  The body `[{"a":1},{"x":{"y":2}` has exactly one
complete object (`{"a":1}`) followed by one truncated object, yet the
recovery scan also extracts the complete nested object `{"y":2}` out of the
truncated tail, so the fetch loop ingests two records, not one. -/
theorem fetchAll_truncated_page_not_exactly_n :
    fetchAll [] [PageResp.ok "[\x7b\"a\":1\x7d,\x7b\"x\":\x7b\"y\":2\x7d"] =
      .ok [Json.obj [("a", Json.num "1")], Json.obj [("y", Json.num "2")]] ∧
    (extractPartialJsonData "[\x7b\"a\":1\x7d,\x7b\"x\":\x7b\"y\":2\x7d").length = 2 :=
  ⟨rfl, rfl⟩

/-- C2 (amended).  For a page whose body fails to parse even after
sanitization, the fetch loop ingests exactly the objects recovered by the
brace-matching scan: with zero objects recovered the page is treated as the
last page and the loop returns what was accumulated so far, and with a
positive number of recovered objects below the page size the loop ingests
them all and terminates pagination cleanly. -/
theorem fetchAll_malformed_page_recovery (body : String) (mock : List Json)
    (rest : List PageResp) (out : List Json)
    (hparse : jsonParse (sanitizeJsonResponse body) = none) :
    (extractPartialJsonData body = [] →
      fetchAllGo mock (PageResp.ok body :: rest) out = .ok out) ∧
    (∀ R, extractPartialJsonData body = R → 0 < R.length → R.length < perPage →
      fetchAllGo mock (PageResp.ok body :: rest) out = .ok (out ++ R)) := by
  constructor
  · intro h
    simp [fetchAllGo, hparse, h]
  · intro R hR h0 h50
    simp [fetchAllGo, hparse, hR, h0, h50]

/-- C2 (witness): the amended theorem applied to the body `[{"a":1},{"b`,
which holds one complete object and a truncated second one with no nested
object — exactly that one object is ingested and pagination stops. -/
theorem fetchAll_malformed_page_recovery_witness :
    fetchAllGo [] [PageResp.ok "[\x7b\"a\":1\x7d,\x7b\"b"] [] =
      .ok [Json.obj [("a", Json.num "1")]] :=
  (fetchAll_malformed_page_recovery "[\x7b\"a\":1\x7d,\x7b\"b" [] [] [] rfl).2
    [Json.obj [("a", Json.num "1")]] rfl (by decide) (by decide)

/-- C9.  Whenever any page request of the fetch loop — first or later —
comes back with HTTP 404 or 401, the loop returns exactly the canned fixture
dataset for the path (`getMockData(path)`, the `mock` argument) and the
items already accumulated from earlier pages (`out`, arbitrary here) are
discarded, not merged. -/
theorem fetchAll_http_error_returns_mock (mock out : List Json)
    (pages : List PageResp) (status : Nat) (h : status = 404 ∨ status = 401) :
    fetchAllGo mock (PageResp.httpErr status :: pages) out = .ok mock := by
  simp [fetchAllGo, h]

/-- C9 (witness): a 404 on the second page discards the item accumulated
from the first page and returns only the fixture item. -/
theorem fetchAll_http_error_returns_mock_witness :
    fetchAllGo [Json.num "7"] [PageResp.httpErr 404, PageResp.ok "[]"] [Json.null] =
      .ok [Json.num "7"] :=
  fetchAll_http_error_returns_mock [Json.num "7"] [Json.null]
    [PageResp.ok "[]"] 404 (Or.inl rfl)

/-- C10.  Sanitization is applied to every body before parsing (the `.ok`
branch of `fetchAllGo` parses `sanitizeJsonResponse body`), and it is not the
identity on valid JSON: the valid one-element array `["a\"b"]` parses, but
its sanitized text `["a"b"]` does not, and the fetch loop consequently
ingests zero items from this well-formed page. -/
theorem sanitize_then_parse_not_parse :
    (jsonParse "[\"a\\\"b\"]").isSome = true ∧
    sanitizeJsonResponse "[\"a\\\"b\"]" = "[\"a\"b\"]" ∧
    jsonParse (sanitizeJsonResponse "[\"a\\\"b\"]") = none ∧
    fetchAll [] [PageResp.ok "[\"a\\\"b\"]"] = .ok [] :=
  ⟨rfl, rfl, rfl, rfl⟩

/-! ## `wpTable` (wp-sql.ts lines 411–432) -/

/-- The character class `[A-Za-z0-9_]` kept by the sanitizing regexes. -/
def isWordChar (c : Char) : Bool :=
  ('A' ≤ c && c ≤ 'Z') || ('a' ≤ c && c ≤ 'z') || ('0' ≤ c && c ≤ '9') || c = '_'

/-- Model of `x.replace(/[^A-Za-z0-9_]/g, '')`. -/
def sanitizeIdent (s : String) : String :=
  String.mk (s.data.filter isWordChar)

/-- Model of `store.dbPrefix || 'wp_'` — `undefined` and the empty string are falsy. -/
def rawPrefixOf (dbPrefix : Option String) : String :=
  match dbPrefix with
  | some p => if p = "" then "wp_" else p
  | none => "wp_"

/-- The function `wpTable`: sanitize prefix and table name to `[A-Za-z0-9_]`, raise
(`Except.error`) when either is empty afterwards, and return the
backquote-wrapped concatenation otherwise.  (The source name `prefix` is a
Lean keyword; the local is called `pfx`.) -/
def wpTable (dbPrefix : Option String) (tableName : String) : Except String String :=
  let pfx := sanitizeIdent (rawPrefixOf dbPrefix)
  if pfx = "" then
    .error "Invalid table prefix: must contain at least one alphanumeric character or underscore"
  else
    let sanitizedTableName := sanitizeIdent tableName
    if sanitizedTableName = "" then
      .error "Invalid table name: must contain at least one alphanumeric character or underscore"
    else
      .ok ("\x60" ++ pfx ++ sanitizedTableName ++ "\x60")

/-- C7.  Every table identifier `wpTable` builds is a nonempty run of
alphanumeric/underscore characters wrapped in backquotes — every other
character of the caller-supplied prefix and base name is stripped before the
identifier reaches SQL text — and when nothing remains of either part after
sanitization an error is raised instead. -/
theorem wpTable_identifier_sanitized (dbPrefix : Option String) (tableName : String) :
    (∀ s, wpTable dbPrefix tableName = .ok s →
      ∃ mid, s = "\x60" ++ mid ++ "\x60" ∧ mid ≠ "" ∧ ∀ c ∈ mid.data, isWordChar c) ∧
    ((sanitizeIdent (rawPrefixOf dbPrefix) = "" ∨ sanitizeIdent tableName = "") →
      ∃ e, wpTable dbPrefix tableName = .error e) := by
  constructor
  · intro s hs
    unfold wpTable at hs
    by_cases hp : sanitizeIdent (rawPrefixOf dbPrefix) = ""
    · simp [hp] at hs
    by_cases ht : sanitizeIdent tableName = ""
    · simp [hp, ht] at hs
    simp [hp, ht] at hs
    refine ⟨sanitizeIdent (rawPrefixOf dbPrefix) ++ sanitizeIdent tableName, ?_, ?_, ?_⟩
    · rw [← hs, String.ext_iff]
      simp [String.data_append]
    · intro h
      apply hp
      have := congrArg String.data h
      simp [String.data_append] at this
      exact String.ext this.1
    · intro c hc
      rw [String.data_append] at hc
      rcases List.mem_append.mp hc with h | h
      · exact List.of_mem_filter h
      · exact List.of_mem_filter h
  · intro h
    rcases h with h | h <;> unfold wpTable
    · exact ⟨"Invalid table prefix: must contain at least one alphanumeric character or underscore",
        by simp [h]⟩
    · by_cases hp : sanitizeIdent (rawPrefixOf dbPrefix) = ""
      · exact ⟨"Invalid table prefix: must contain at least one alphanumeric character or underscore",
          by simp [hp]⟩
      · exact ⟨"Invalid table name: must contain at least one alphanumeric character or underscore",
          by simp [hp, h]⟩

/-- C7 (witness): `wpTable { dbPrefix: 'w-p_' } 'po sts'` succeeds with a
sanitized identifier, and a prefix with no legal character at all errors. -/
theorem wpTable_identifier_sanitized_witness :
    wpTable (some "w-p_") "po sts" = .ok "\x60wp_posts\x60" ∧
    (∃ mid, "\x60wp_posts\x60" = "\x60" ++ mid ++ "\x60" ∧ mid ≠ "" ∧
      ∀ c ∈ mid.data, isWordChar c) ∧
    (∃ e, wpTable (some "!!") "posts" = .error e) := by
  refine ⟨rfl, ?_, ?_⟩
  · exact (wpTable_identifier_sanitized (some "w-p_") "po sts").1 _ rfl
  · exact (wpTable_identifier_sanitized (some "!!") "posts").2 (Or.inl (by decide))

/-! ## JavaScript helpers shared by the Direct-Datastore reconcilers -/

/-- JavaScript truthiness of a nullable string: `null`/`undefined` and the
empty string are falsy.  `jsTruthyStr x = some s` means `x` is truthy with
value `s`. -/
def jsTruthyStr : Option String → Option String
  | some s => if s = "" then none else some s
  | none => none

/-- Model of `a || b` on nullable strings (first truthy value, else `null`). -/
def jsOrStr (a b : Option String) : Option String :=
  (jsTruthyStr a).orElse fun _ => jsTruthyStr b

def digitsToNat (ds : List Char) : Nat :=
  ds.foldl (fun acc c => acc * 10 + (c.toNat - '0'.toNat)) 0

def isJsSpace (c : Char) : Bool :=
  c = ' ' || c = '\n' || c = '\r' || c = '\t'

/-- Model of `parseFloat`: longest decimal-literal prefix (sign, digits,
optional fraction, optional exponent), `none` for `NaN`.  (`Infinity`
literals are not modelled; no money string uses them.) -/
def jsParseFloat (s : String) : Option ℚ :=
  let cs := s.data.dropWhile isJsSpace
  let (sgn, cs1) : ℚ × Chars :=
    match cs with
    | '-' :: r => (-1, r)
    | '+' :: r => (1, r)
    | _ => (1, cs)
  let intDs := cs1.takeWhile Char.isDigit
  let r1 := cs1.dropWhile Char.isDigit
  let (fracDs, r2) : Chars × Chars :=
    match r1 with
    | '.' :: r => (r.takeWhile Char.isDigit, r.dropWhile Char.isDigit)
    | _ => ([], r1)
  if intDs = [] ∧ fracDs = [] then none
  else
    let base : ℚ := (digitsToNat intDs : ℚ) + (digitsToNat fracDs : ℚ) / ((10 : ℚ) ^ fracDs.length)
    let expVal : Int :=
      match r2 with
      | e :: r3 =>
        if e = 'e' ∨ e = 'E' then
          let (esgn, r4) : Int × Chars :=
            match r3 with
            | '+' :: r5 => (1, r5)
            | '-' :: r5 => (-1, r5)
            | _ => (1, r3)
          let eds := r4.takeWhile Char.isDigit
          if eds = [] then 0 else esgn * (digitsToNat eds : Int)
        else 0
      | [] => 0
    some (sgn * base * (10 : ℚ) ^ expVal)

/-- Model of `parseInt(s, 10)`: optional sign and leading decimal digits,
`none` for `NaN`. -/
def jsParseInt (s : String) : Option Int :=
  let cs := s.data.dropWhile isJsSpace
  let (sgn, cs1) : Int × Chars :=
    match cs with
    | '-' :: r => (-1, r)
    | '+' :: r => (1, r)
    | _ => (1, cs)
  let ds := cs1.takeWhile Char.isDigit
  if ds = [] then none else some (sgn * (digitsToNat ds : Int))

/-- The `meta[m.meta_key] = m.meta_value` accumulation over a metadata query
result: the last row for a key wins. -/
def buildMeta (rows : List (String × String)) (k : String) : Option String :=
  rows.foldl (fun acc kv => if kv.1 = k then some kv.2 else acc) none

/-! ## Local rows and the database state

One row type per local table.  The `localId : Nat` plays the role of the
generated primary key `id`; `nextId` in `LocalDb` is the id allocator.
Timestamp bookkeeping fields (`dateCreated`, `dateUpdated`, `createdAt`,
`updatedAt`) are omitted: no claim mentions them and they are not part of
any key.  The billing/shipping address snapshot and attribution strings of
an order are likewise omitted except `billingEmail`, which drives the
customer link. -/

structure ProductData where
  name : String
  sku : Option String
  price : Option ℚ
  status : String
  imageUrl : Option String
  totalSalesWoo : Option Int
deriving Repr, DecidableEq

structure ProductRow where
  localId : Nat
  storeId : String
  wooId : Int
  data : ProductData
deriving Repr, DecidableEq

structure OrderData where
  name : String
  total : Option ℚ          -- `none` models NaN from an unparseable meta value
  status : String
  billingEmail : Option String
  currency : String
  discountTotal : Option ℚ  -- `none` models both null (missing) and NaN
  shippingTotal : Option ℚ
  taxTotal : Option ℚ
  subtotal : Option ℚ
deriving Repr, DecidableEq

structure OrderRow where
  localId : Nat
  storeId : String
  wooId : Int
  data : OrderData
  customerId : Option Nat
deriving Repr, DecidableEq

structure ItemData where
  wooId : Int
  name : String
  quantity : Option Int     -- `none` models NaN from `parseInt`
  price : Option ℚ
  total : Option ℚ
  sku : Option String       -- always null in the Direct-Datastore path
  productId : Option Nat
deriving Repr, DecidableEq

structure OrderItemRow where
  localId : Nat
  orderId : Nat
  data : ItemData
deriving Repr, DecidableEq

structure CustomerRow where
  localId : Nat
  storeId : String
  wooId : Int
  firstName : Option String
  lastName : Option String
  email : Option String
deriving Repr, DecidableEq

structure LocalDb where
  nextId : Nat
  products : List ProductRow
  orders : List OrderRow
  orderItems : List OrderItemRow
  customers : List CustomerRow
deriving Repr, DecidableEq

/-! ## Source rows fetched from the WordPress schema

These are the SQL query results the reconcilers iterate over; each secondary
query (postmeta, usermeta, item meta, thumbnail guid) is carried along with
its primary row. -/

structure WpProductRow where
  idNum : Int                          -- p.ID
  postTitle : Option String
  postStatus : Option String
  metaRows : List (String × String)    -- postmeta for this product
  thumbnailGuid : Option String        -- guid of the `_thumbnail_id` post, when that row exists
deriving Repr, DecidableEq

structure FetchedItem where
  itemId : Int                         -- order_item_id
  itemName : Option String             -- order_item_name
  metaRows : List (String × String)    -- woocommerce_order_itemmeta for this item
deriving Repr, DecidableEq

structure FetchedOrder where
  idNum : Int                          -- p.ID
  postStatus : Option String
  metaRows : List (String × String)    -- postmeta for this order
  lineItems : List FetchedItem         -- the `order_item_type = 'line_item'` rows
deriving Repr, DecidableEq

structure WpUserRow where
  idNum : Int                          -- u.ID
  userEmail : Option String
  metaRows : List (String × String)    -- usermeta (first/last/billing names)
deriving Repr, DecidableEq

structure GuestRow where
  billingEmail : Option String
  billingFirstName : Option String
  billingLastName : Option String
deriving Repr, DecidableEq

/-! ## Derived monetary fields (woocommerce.ts lines 871–933 and 1019–1022) -/

/-- Model of `meta[k] ? parseFloat(meta[k]) : null` — `none` is null or NaN; both are
falsy wherever these fields are used, so they may share a representation. -/
def metaMoney (meta : String → Option String) (k : String) : Option ℚ :=
  match jsTruthyStr (meta k) with
  | some v => jsParseFloat v
  | none => none

structure OrderMoney where
  total : Option ℚ
  shippingTotal : Option ℚ
  taxTotal : Option ℚ
  discountTotal : Option ℚ
  subtotal : Option ℚ
deriving Repr, DecidableEq

/-- The parsed order totals: `total` defaults to `0` when the meta is
missing (`none` only for NaN), the three components stay nullable, and
`subtotal = total - (shippingTotal || 0) - (taxTotal || 0) + (discountTotal || 0)`.
NaN propagates from `total` into `subtotal` (a falsy NaN component is
replaced by `0` by `||`, exactly as in the source expression). -/
def orderMoneyOf (meta : String → Option String) : OrderMoney :=
  let total : Option ℚ :=
    match jsTruthyStr (meta "_order_total") with
    | some v => jsParseFloat v
    | none => some 0
  let shippingTotal := metaMoney meta "_order_shipping"
  let taxTotal := metaMoney meta "_order_tax"
  let discountTotal := metaMoney meta "_cart_discount"
  { total, shippingTotal, taxTotal, discountTotal,
    subtotal := total.map fun t =>
      t - shippingTotal.getD 0 - taxTotal.getD 0 + discountTotal.getD 0 }

structure ItemMoney where
  quantity : Option Int
  price : Option ℚ
  total : Option ℚ
deriving Repr, DecidableEq

/-- The parsed line-item numbers: `quantity` defaults to 1 when missing,
`lineTotal` to 0, and `unitPrice = quantity > 0 ? lineTotal / quantity : 0`
(`NaN > 0` is false, so a NaN quantity also yields price 0). -/
def itemMoneyOf (qtyMeta lineTotalMeta : Option String) : ItemMoney :=
  let quantity : Option Int :=
    match jsTruthyStr qtyMeta with
    | some v => jsParseInt v
    | none => some 1
  let lineTotal : Option ℚ :=
    match jsTruthyStr lineTotalMeta with
    | some v => jsParseFloat v
    | none => some 0
  { quantity,
    price :=
      match quantity with
      | some q => if 0 < q then lineTotal.map (fun t => t / (q : ℚ)) else some 0
      | none => some 0,
    total := lineTotal }

/-! ## Products reconciler (products-db.ts `syncProductsIncremental`) -/

/-- The per-product field computation of `syncProductsIncremental`. -/
def buildProductData (p : WpProductRow) : ProductData :=
  let meta := buildMeta p.metaRows
  let priceValue := jsOrStr (meta "_price") (meta "_regular_price")
  { name := (jsTruthyStr p.postTitle).getD "",
    sku := jsTruthyStr (meta "_sku"),
    price :=
      match priceValue with
      | some v => jsParseFloat v
      | none => none,
    status := (jsTruthyStr p.postStatus).getD "draft",
    imageUrl :=
      match jsTruthyStr (meta "_thumbnail_id") with
      | some _ => jsTruthyStr p.thumbnailGuid
      | none => none,
    totalSalesWoo :=
      match jsTruthyStr (meta "total_sales") with
      | some v => jsParseInt v
      | none => none }

/-- Model of `prisma.product.upsert` on the natural key `storeId_wooId`. -/
def upsertProduct (db : LocalDb) (sid : String) (wid : Int) (d : ProductData) : LocalDb :=
  match db.products.find? (fun r => decide (r.storeId = sid ∧ r.wooId = wid)) with
  | some _ =>
    { db with products := db.products.map fun r =>
        if r.storeId = sid ∧ r.wooId = wid then { r with data := d } else r }
  | none =>
    { db with nextId := db.nextId + 1,
              products := db.products ++ [⟨db.nextId, sid, wid, d⟩] }

/-! ## Orders reconciler (woocommerce.ts `syncOrdersIncremental`) -/

/-- The per-order field computation (`orderData` in the source). -/
def buildOrderData (o : FetchedOrder) : OrderData :=
  let meta := buildMeta o.metaRows
  let m := orderMoneyOf meta
  { name := "#" ++ toString o.idNum,
    total := m.total,
    status := (jsTruthyStr o.postStatus).getD "pending",
    billingEmail := jsTruthyStr (meta "_billing_email"),
    currency := (jsTruthyStr (meta "_order_currency")).getD "USD",
    discountTotal := m.discountTotal,
    shippingTotal := m.shippingTotal,
    taxTotal := m.taxTotal,
    subtotal := m.subtotal }

/-- Model of `prisma.customer.findFirst({ storeId, email })` for the order link. -/
def buildCustomerLink (db : LocalDb) (sid : String) (d : OrderData) : Option Nat :=
  match d.billingEmail with
  | some email =>
    (db.customers.find? (fun c => decide (c.storeId = sid ∧ c.email = some email))).map
      (·.localId)
  | none => none

/-- Model of `prisma.order.upsert` on `storeId_wooId`, returning the order's local id
(`order.id` in the source). -/
def upsertOrder (db : LocalDb) (sid : String) (wid : Int) (d : OrderData)
    (cid : Option Nat) : LocalDb × Nat :=
  match db.orders.find? (fun r => decide (r.storeId = sid ∧ r.wooId = wid)) with
  | some r =>
    ({ db with orders := db.orders.map fun x =>
        if x.storeId = sid ∧ x.wooId = wid then { x with data := d, customerId := cid }
        else x }, r.localId)
  | none =>
    ({ db with nextId := db.nextId + 1,
               orders := db.orders ++ [⟨db.nextId, sid, wid, d, cid⟩] }, db.nextId)

/-- Model of `prisma.orderItem.deleteMany({ where: { orderId } })`. -/
def deleteOrderItems (db : LocalDb) (oid : Nat) : LocalDb :=
  { db with orderItems := db.orderItems.filter fun it => decide (it.orderId ≠ oid) }

/-- The per-item field computation: metadata map, `_product_id` link lookup
(`if (productWooId)` — zero and NaN are falsy), and the derived numbers. -/
def buildItemData (products : List ProductRow) (sid : String) (it : FetchedItem) : ItemData :=
  let meta := buildMeta it.metaRows
  let productWooId : Option Int :=
    match jsTruthyStr (meta "_product_id") with
    | some v => jsParseInt v
    | none => none
  let m := itemMoneyOf (meta "_qty") (meta "_line_total")
  { wooId := it.itemId,
    name := (jsTruthyStr it.itemName).getD "Unknown Product",
    quantity := m.quantity,
    price := m.price,
    total := m.total,
    sku := none,
    productId :=
      match productWooId with
      | some q =>
        if q ≠ 0 then
          (products.find? (fun p => decide (p.storeId = sid ∧ p.wooId = q))).map (·.localId)
        else none
      | none => none }

/-- Model of `prisma.orderItem.create`.  The unique index
`order_items_orderId_wooId_key` makes a duplicate create raise `P2002`;
the source catches that per item (`itemError`) and moves on, which this
model renders as leaving the database unchanged. -/
def createOrderItem (db : LocalDb) (oid : Nat) (d : ItemData) : LocalDb :=
  if db.orderItems.any (fun it => decide (it.orderId = oid ∧ it.data.wooId = d.wooId)) then db
  else
    { db with nextId := db.nextId + 1,
              orderItems := db.orderItems ++ [⟨db.nextId, oid, d⟩] }

/-- One iteration of the order loop of `syncOrdersIncremental`: build the
order data, resolve the customer link, upsert the order, delete all its
line items, then re-create the freshly fetched ones.  Returns the order's
local id alongside the new state. -/
def syncOrderRecord (db : LocalDb) (sid : String) (o : FetchedOrder) : LocalDb × Nat :=
  let d := buildOrderData o
  let cid := buildCustomerLink db sid d
  let res := upsertOrder db sid o.idNum d cid
  let db2 := deleteOrderItems res.1 res.2
  let db3 := o.lineItems.foldl
    (fun acc it => createOrderItem acc res.2 (buildItemData acc.products sid it)) db2
  (db3, res.2)

/-! ## Customers reconciler (woocommerce.ts `syncCustomersIncremental`) -/

/-- One iteration of the registered-user loop: resolve names from the
usermeta map and upsert on `storeId_wooId` with `wooId = u.ID`. -/
def registeredStep (db : LocalDb) (sid : String) (u : WpUserRow) : LocalDb :=
  let meta := buildMeta u.metaRows
  let firstName := jsOrStr (meta "first_name") (meta "billing_first_name")
  let lastName := jsOrStr (meta "last_name") (meta "billing_last_name")
  let email := jsTruthyStr u.userEmail
  match db.customers.find? (fun c => decide (c.storeId = sid ∧ c.wooId = u.idNum)) with
  | some _ =>
    { db with customers := db.customers.map fun c =>
        if c.storeId = sid ∧ c.wooId = u.idNum then
          { c with firstName := firstName, lastName := lastName, email := email }
        else c }
  | none =>
    { db with nextId := db.nextId + 1,
              customers := db.customers ++ [⟨db.nextId, sid, u.idNum, firstName, lastName, email⟩] }

/-- One iteration of the guest loop: skip falsy emails, update the first
customer matching `(storeId, email)` when one exists, otherwise create a
guest with the sentinel `wooId = 0`.  The create is guarded by the unique
index `customers_storeId_wooId_key`: a second guest for the same store
raises `P2002`, which the source catches (`guestError`) — modelled as
leaving the database unchanged. -/
def guestStep (db : LocalDb) (sid : String) (g : GuestRow) : LocalDb :=
  match jsTruthyStr g.billingEmail with
  | none => db
  | some email =>
    match db.customers.find? (fun c => decide (c.storeId = sid ∧ c.email = some email)) with
    | some existing =>
      { db with customers := db.customers.map fun c =>
          if c.localId = existing.localId then
            { c with firstName := (jsTruthyStr g.billingFirstName).orElse fun _ => c.firstName,
                     lastName := (jsTruthyStr g.billingLastName).orElse fun _ => c.lastName }
          else c }
    | none =>
      if db.customers.any (fun c => decide (c.storeId = sid ∧ c.wooId = 0)) then db
      else
        { db with nextId := db.nextId + 1,
                  customers := db.customers ++
                    [⟨db.nextId, sid, 0, jsTruthyStr g.billingFirstName,
                      jsTruthyStr g.billingLastName, some email⟩] }

/-! ## Reconciliation steps as operations

The three Reconcilers run concurrently (`Promise.allSettled`), each looping
over its fetched rows; every local write is one of the four per-record
steps below, so any run — and any interleaving of runs for any connections
— is some sequence of `DbOp`s applied to the store. -/

inductive DbOp where
  | syncProduct (sid : String) (p : WpProductRow)
  | syncOrder (sid : String) (o : FetchedOrder)
  | syncRegisteredCustomer (sid : String) (u : WpUserRow)
  | syncGuestCustomer (sid : String) (g : GuestRow)
deriving Repr

def applyOp (db : LocalDb) : DbOp → LocalDb
  | .syncProduct sid p => upsertProduct db sid p.idNum (buildProductData p)
  | .syncOrder sid o => (syncOrderRecord db sid o).1
  | .syncRegisteredCustomer sid u => registeredStep db sid u
  | .syncGuestCustomer sid g => guestStep db sid g

/-- The product loop of `syncProductsIncremental` over one fetched batch. -/
def syncProductsModel (db : LocalDb) (sid : String) (rows : List WpProductRow) : LocalDb :=
  (rows.map (DbOp.syncProduct sid)).foldl applyOp db

/-- The order loop of `syncOrdersIncremental` over one fetched batch. -/
def syncOrdersModel (db : LocalDb) (sid : String) (rows : List FetchedOrder) : LocalDb :=
  (rows.map (DbOp.syncOrder sid)).foldl applyOp db

/-- Both loops of `syncCustomersIncremental`: registered users first, then
the guest discovery pass. -/
def syncCustomersModel (db : LocalDb) (sid : String) (users : List WpUserRow)
    (guests : List GuestRow) : LocalDb :=
  (users.map (DbOp.syncRegisteredCustomer sid) ++ guests.map (DbOp.syncGuestCustomer sid)).foldl
    applyOp db

/-! ## Natural-key uniqueness -/

def productKeys (db : LocalDb) : List (String × Int) :=
  db.products.map fun r => (r.storeId, r.wooId)

def orderKeys (db : LocalDb) : List (String × Int) :=
  db.orders.map fun r => (r.storeId, r.wooId)

def customerKeys (db : LocalDb) : List (String × Int) :=
  db.customers.map fun r => (r.storeId, r.wooId)

/-- The global invariant: per entity type, no two local rows share a
`(connectionId, remoteId)` pair. -/
def DbInv (db : LocalDb) : Prop :=
  (productKeys db).Nodup ∧ (orderKeys db).Nodup ∧ (customerKeys db).Nodup

instance (db : LocalDb) : Decidable (DbInv db) := by
  unfold DbInv; infer_instance

/-! ### Preservation of natural-key uniqueness -/

lemma map_ite_key {α κ : Type} (rows : List α) (P : α → Prop) [DecidablePred P]
    (upd : α → α) (key : α → κ) (h : ∀ r, key (upd r) = key r) :
    (rows.map fun r => if P r then upd r else r).map key = rows.map key := by
  induction rows with
  | nil => rfl
  | cons a l ih => by_cases hP : P a <;> simp [hP, h, ih]

lemma nodup_map_ite {α κ : Type} (rows : List α) (P : α → Prop) [DecidablePred P]
    (upd : α → α) (key : α → κ) (h : ∀ r, key (upd r) = key r)
    (hn : (rows.map key).Nodup) :
    ((rows.map fun r => if P r then upd r else r).map key).Nodup := by
  rw [map_ite_key rows P upd key h]
  exact hn

lemma nodup_append_key {κ : Type} (ks : List κ) (k : κ) (h : ks.Nodup) (hk : k ∉ ks) :
    (ks ++ [k]).Nodup := by
  simp [List.nodup_append, h, hk]

lemma upsertProduct_customers (db : LocalDb) (sid : String) (wid : Int) (d : ProductData) :
    (upsertProduct db sid wid d).customers = db.customers := by
  unfold upsertProduct; split <;> rfl

lemma upsertProduct_orders (db : LocalDb) (sid : String) (wid : Int) (d : ProductData) :
    (upsertProduct db sid wid d).orders = db.orders := by
  unfold upsertProduct; split <;> rfl

lemma upsertProduct_productKeys_nodup (db : LocalDb) (sid : String) (wid : Int)
    (d : ProductData) (h : (productKeys db).Nodup) :
    (productKeys (upsertProduct db sid wid d)).Nodup := by
  unfold upsertProduct
  cases hf : db.products.find? (fun r => decide (r.storeId = sid ∧ r.wooId = wid)) with
  | some r =>
    dsimp only [productKeys]
    refine nodup_map_ite db.products _ _ _ (fun r => ?_) h
    rfl
  | none =>
    rw [List.find?_eq_none] at hf
    have hmem : (sid, wid) ∉ productKeys db := by
      intro hmem
      rcases List.mem_map.mp hmem with ⟨r, hr, hkey⟩
      have h1 : r.storeId = sid := congrArg Prod.fst hkey
      have h2 : r.wooId = wid := congrArg Prod.snd hkey
      simpa [h1, h2] using hf r hr
    dsimp only [productKeys]
    simp only [List.map_append, List.map_cons, List.map_nil]
    exact nodup_append_key _ _ h hmem

lemma upsertOrder_products (db : LocalDb) (sid : String) (wid : Int) (d : OrderData)
    (cid : Option Nat) : (upsertOrder db sid wid d cid).1.products = db.products := by
  unfold upsertOrder; split <;> rfl

lemma upsertOrder_customers (db : LocalDb) (sid : String) (wid : Int) (d : OrderData)
    (cid : Option Nat) : (upsertOrder db sid wid d cid).1.customers = db.customers := by
  unfold upsertOrder; split <;> rfl

lemma upsertOrder_orderKeys_nodup (db : LocalDb) (sid : String) (wid : Int) (d : OrderData)
    (cid : Option Nat) (h : (orderKeys db).Nodup) :
    (orderKeys (upsertOrder db sid wid d cid).1).Nodup := by
  unfold upsertOrder
  cases hf : db.orders.find? (fun r => decide (r.storeId = sid ∧ r.wooId = wid)) with
  | some r =>
    dsimp only [orderKeys]
    refine nodup_map_ite db.orders _ _ _ (fun r => ?_) h
    rfl
  | none =>
    rw [List.find?_eq_none] at hf
    have hmem : (sid, wid) ∉ orderKeys db := by
      intro hmem
      rcases List.mem_map.mp hmem with ⟨r, hr, hkey⟩
      have h1 : r.storeId = sid := congrArg Prod.fst hkey
      have h2 : r.wooId = wid := congrArg Prod.snd hkey
      simpa [h1, h2] using hf r hr
    dsimp only [orderKeys]
    simp only [List.map_append, List.map_cons, List.map_nil]
    exact nodup_append_key _ _ h hmem

lemma createOrderItem_products (db : LocalDb) (oid : Nat) (d : ItemData) :
    (createOrderItem db oid d).products = db.products := by
  unfold createOrderItem; split <;> rfl

lemma createOrderItem_orders (db : LocalDb) (oid : Nat) (d : ItemData) :
    (createOrderItem db oid d).orders = db.orders := by
  unfold createOrderItem; split <;> rfl

lemma createOrderItem_customers (db : LocalDb) (oid : Nat) (d : ItemData) :
    (createOrderItem db oid d).customers = db.customers := by
  unfold createOrderItem; split <;> rfl

lemma createItems_foldl_products (items : List FetchedItem) (oid : Nat) (sid : String)
    (db : LocalDb) :
    (items.foldl (fun acc it => createOrderItem acc oid (buildItemData acc.products sid it))
      db).products = db.products := by
  induction items generalizing db with
  | nil => rfl
  | cons a l ih => rw [List.foldl_cons, ih, createOrderItem_products]

lemma createItems_foldl_orders (items : List FetchedItem) (oid : Nat) (sid : String)
    (db : LocalDb) :
    (items.foldl (fun acc it => createOrderItem acc oid (buildItemData acc.products sid it))
      db).orders = db.orders := by
  induction items generalizing db with
  | nil => rfl
  | cons a l ih => rw [List.foldl_cons, ih, createOrderItem_orders]

lemma createItems_foldl_customers (items : List FetchedItem) (oid : Nat) (sid : String)
    (db : LocalDb) :
    (items.foldl (fun acc it => createOrderItem acc oid (buildItemData acc.products sid it))
      db).customers = db.customers := by
  induction items generalizing db with
  | nil => rfl
  | cons a l ih => rw [List.foldl_cons, ih, createOrderItem_customers]

lemma deleteOrderItems_products (db : LocalDb) (oid : Nat) :
    (deleteOrderItems db oid).products = db.products := rfl

lemma deleteOrderItems_orders (db : LocalDb) (oid : Nat) :
    (deleteOrderItems db oid).orders = db.orders := rfl

lemma deleteOrderItems_customers (db : LocalDb) (oid : Nat) :
    (deleteOrderItems db oid).customers = db.customers := rfl

lemma syncOrderRecord_products (db : LocalDb) (sid : String) (o : FetchedOrder) :
    (syncOrderRecord db sid o).1.products = db.products := by
  unfold syncOrderRecord
  dsimp only
  rw [createItems_foldl_products, deleteOrderItems_products, upsertOrder_products]

lemma syncOrderRecord_customers (db : LocalDb) (sid : String) (o : FetchedOrder) :
    (syncOrderRecord db sid o).1.customers = db.customers := by
  unfold syncOrderRecord
  dsimp only
  rw [createItems_foldl_customers, deleteOrderItems_customers, upsertOrder_customers]

lemma syncOrderRecord_orders_eq (db : LocalDb) (sid : String) (o : FetchedOrder) :
    (syncOrderRecord db sid o).1.orders =
      (upsertOrder db sid o.idNum (buildOrderData o)
        (buildCustomerLink db sid (buildOrderData o))).1.orders := by
  unfold syncOrderRecord
  dsimp only
  rw [createItems_foldl_orders, deleteOrderItems_orders]

lemma syncOrderRecord_orderKeys_nodup (db : LocalDb) (sid : String) (o : FetchedOrder)
    (h : (orderKeys db).Nodup) : (orderKeys (syncOrderRecord db sid o).1).Nodup := by
  have hk : orderKeys (syncOrderRecord db sid o).1 =
      orderKeys (upsertOrder db sid o.idNum (buildOrderData o)
        (buildCustomerLink db sid (buildOrderData o))).1 := by
    unfold orderKeys
    rw [syncOrderRecord_orders_eq]
  rw [hk]
  exact upsertOrder_orderKeys_nodup _ _ _ _ _ h

lemma registeredStep_products (db : LocalDb) (sid : String) (u : WpUserRow) :
    (registeredStep db sid u).products = db.products := by
  unfold registeredStep; split <;> rfl

lemma registeredStep_orders (db : LocalDb) (sid : String) (u : WpUserRow) :
    (registeredStep db sid u).orders = db.orders := by
  unfold registeredStep; split <;> rfl

lemma registeredStep_customerKeys_nodup (db : LocalDb) (sid : String) (u : WpUserRow)
    (h : (customerKeys db).Nodup) : (customerKeys (registeredStep db sid u)).Nodup := by
  unfold registeredStep
  cases hf : db.customers.find? (fun c => decide (c.storeId = sid ∧ c.wooId = u.idNum)) with
  | some r =>
    dsimp only [customerKeys]
    refine nodup_map_ite db.customers _ _ _ (fun c => ?_) h
    rfl
  | none =>
    rw [List.find?_eq_none] at hf
    have hmem : (sid, u.idNum) ∉ customerKeys db := by
      intro hmem
      rcases List.mem_map.mp hmem with ⟨r, hr, hkey⟩
      have h1 : r.storeId = sid := congrArg Prod.fst hkey
      have h2 : r.wooId = u.idNum := congrArg Prod.snd hkey
      simpa [h1, h2] using hf r hr
    dsimp only [customerKeys]
    simp only [List.map_append, List.map_cons, List.map_nil]
    exact nodup_append_key _ _ h hmem

lemma guestStep_products (db : LocalDb) (sid : String) (g : GuestRow) :
    (guestStep db sid g).products = db.products := by
  unfold guestStep
  rcases jsTruthyStr g.billingEmail with _ | email
  · rfl
  · dsimp only
    split
    · rfl
    · split <;> rfl

lemma guestStep_orders (db : LocalDb) (sid : String) (g : GuestRow) :
    (guestStep db sid g).orders = db.orders := by
  unfold guestStep
  rcases jsTruthyStr g.billingEmail with _ | email
  · rfl
  · dsimp only
    split
    · rfl
    · split <;> rfl

lemma guestStep_customerKeys_nodup (db : LocalDb) (sid : String) (g : GuestRow)
    (h : (customerKeys db).Nodup) : (customerKeys (guestStep db sid g)).Nodup := by
  unfold guestStep
  rcases jsTruthyStr g.billingEmail with _ | email
  · exact h
  · dsimp only
    cases hf : db.customers.find? (fun c => decide (c.storeId = sid ∧ c.email = some email)) with
    | some existing =>
      dsimp only [customerKeys]
      refine nodup_map_ite db.customers _ _ _ (fun c => ?_) h
      rfl
    | none =>
      cases hg : db.customers.any (fun c => decide (c.storeId = sid ∧ c.wooId = 0)) with
      | true => simpa [hg] using h
      | false =>
        have hmem : (sid, (0 : Int)) ∉ customerKeys db := by
          intro hmem
          rcases List.mem_map.mp hmem with ⟨r, hr, hkey⟩
          have h1 : r.storeId = sid := congrArg Prod.fst hkey
          have h2 : r.wooId = 0 := congrArg Prod.snd hkey
          have := List.any_eq_false.mp hg r hr
          simp [h1, h2] at this
        simp only [Bool.false_eq_true, if_false]
        dsimp only [customerKeys]
        simp only [List.map_append, List.map_cons, List.map_nil]
        exact nodup_append_key _ _ h hmem

/-- Every per-record reconciliation step preserves the uniqueness invariant. -/
lemma applyOp_inv (db : LocalDb) (op : DbOp) (h : DbInv db) : DbInv (applyOp db op) := by
  obtain ⟨hp, ho, hc⟩ := h
  cases op with
  | syncProduct sid p =>
    dsimp only [applyOp]
    refine ⟨upsertProduct_productKeys_nodup _ _ _ _ hp, ?_, ?_⟩
    · unfold orderKeys; rw [upsertProduct_orders]; exact ho
    · unfold customerKeys; rw [upsertProduct_customers]; exact hc
  | syncOrder sid o =>
    dsimp only [applyOp]
    refine ⟨?_, syncOrderRecord_orderKeys_nodup _ _ _ ho, ?_⟩
    · unfold productKeys; rw [syncOrderRecord_products]; exact hp
    · unfold customerKeys; rw [syncOrderRecord_customers]; exact hc
  | syncRegisteredCustomer sid u =>
    dsimp only [applyOp]
    refine ⟨?_, ?_, registeredStep_customerKeys_nodup _ _ _ hc⟩
    · unfold productKeys; rw [registeredStep_products]; exact hp
    · unfold orderKeys; rw [registeredStep_orders]; exact ho
  | syncGuestCustomer sid g =>
    dsimp only [applyOp]
    refine ⟨?_, ?_, guestStep_customerKeys_nodup _ _ _ hc⟩
    · unfold productKeys; rw [guestStep_products]; exact hp
    · unfold orderKeys; rw [guestStep_orders]; exact ho

/-- C1.  For every sequence of reconciliation steps — any interleaving of
catalog, transaction, registered-account and guest-account reconciliations
of any runs, for any connections — a store satisfying the natural-key
invariant still satisfies it afterwards: no two local rows of the same
entity type ever share a `(connectionId, remoteId)` pair, guest accounts
with the sentinel remote id 0 included (a colliding guest create is refused
by the `customers_storeId_wooId_key` unique index and tallied as a record
error by the source, so it never yields a duplicate row). -/
theorem sync_preserves_natural_key_uniqueness (ops : List DbOp) (db : LocalDb)
    (h : DbInv db) : DbInv (ops.foldl applyOp db) := by
  induction ops generalizing db with
  | nil => exact h
  | cons op rest ih => exact ih _ (applyOp_inv _ _ h)

/-- C1 (witness): starting from an empty store, a run that reconciles a
product, a registered account, two guest accounts (second create refused by
the unique index) and an order still satisfies the invariant. -/
theorem sync_preserves_natural_key_uniqueness_witness :
    DbInv ([DbOp.syncGuestCustomer "s1" ⟨some "a@x.test", some "A", none⟩,
        DbOp.syncGuestCustomer "s1" ⟨some "b@x.test", none, none⟩,
        DbOp.syncProduct "s1" ⟨5, some "P", some "publish", [("_price", "9.99")], none⟩,
        DbOp.syncRegisteredCustomer "s1" ⟨3, some "u@x.test", [("first_name", "U")]⟩,
        DbOp.syncOrder "s1" ⟨11, some "wc-completed", [("_order_total", "20")],
          [⟨7, some "I", [("_qty", "2"), ("_line_total", "20")]⟩]⟩].foldl applyOp
      (⟨0, [], [], [], []⟩ : LocalDb)) :=
  sync_preserves_natural_key_uniqueness _ _ (by decide)

/-! ## Line-item replacement (C6) -/

lemma buildItemData_wooId (P : List ProductRow) (sid : String) (it : FetchedItem) :
    (buildItemData P sid it).wooId = it.itemId := rfl

lemma upsertOrder_orderItems (db : LocalDb) (sid : String) (wid : Int) (d : OrderData)
    (cid : Option Nat) : (upsertOrder db sid wid d cid).1.orderItems = db.orderItems := by
  unfold upsertOrder; split <;> rfl

lemma createOrderItem_products_eq (db : LocalDb) (oid : Nat) (d : ItemData) :
    (createOrderItem db oid d).products = db.products :=
  createOrderItem_products db oid d

/-- After deleting the order's items and re-creating the fetched batch (all
with pairwise distinct remote item ids), the items owned by `oid` are the
previous ones followed by exactly the built batch, and items of other
orders are untouched. -/
lemma createItems_spec (sid : String) (oid : Nat) (todo : List FetchedItem) (db : LocalDb)
    (hnd : (todo.map (fun it => it.itemId)).Nodup)
    (hclean : ∀ r ∈ db.orderItems, r.orderId = oid →
      r.data.wooId ∉ todo.map (fun it => it.itemId)) :
    ((todo.foldl (fun acc it => createOrderItem acc oid (buildItemData acc.products sid it))
        db).orderItems.filter fun r => decide (r.orderId = oid)).map (fun r => r.data)
      = ((db.orderItems.filter fun r => decide (r.orderId = oid)).map fun r => r.data)
        ++ todo.map (buildItemData db.products sid)
    ∧ ((todo.foldl (fun acc it => createOrderItem acc oid (buildItemData acc.products sid it))
        db).orderItems.filter fun r => decide (r.orderId ≠ oid))
      = db.orderItems.filter fun r => decide (r.orderId ≠ oid) := by
  induction todo generalizing db with
  | nil => simp
  | cons t ts ih =>
    rw [List.foldl_cons]
    have hany : db.orderItems.any
        (fun it => decide (it.orderId = oid ∧
          it.data.wooId = (buildItemData db.products sid t).wooId)) = false := by
      rw [List.any_eq_false]
      intro r hr
      simp only [buildItemData_wooId, decide_eq_true_eq, not_and]
      intro h1 h2
      exact hclean r hr h1 (by simp [h2])
    have step : createOrderItem db oid (buildItemData db.products sid t)
        = { db with
            nextId := db.nextId + 1,
            orderItems := db.orderItems ++ [⟨db.nextId, oid, buildItemData db.products sid t⟩] } := by
      unfold createOrderItem
      rw [hany]
      simp
    rw [step]
    have hsplit : (∀ x ∈ ts, ¬x.itemId = t.itemId) ∧
        (ts.map (fun it => it.itemId)).Nodup := by simpa using hnd
    have hmemt : t.itemId ∉ ts.map (fun it => it.itemId) := by
      intro hmem
      rcases List.mem_map.mp hmem with ⟨x, hx, hxe⟩
      exact hsplit.1 x hx hxe
    have hclean2 : ∀ r ∈ (db.orderItems ++
        [(⟨db.nextId, oid, buildItemData db.products sid t⟩ : OrderItemRow)]),
        r.orderId = oid → r.data.wooId ∉ ts.map (fun it => it.itemId) := by
      intro r hr hroid
      rcases List.mem_append.mp hr with hr | hr
      · intro hmem
        refine hclean r hr hroid ?_
        simp only [List.map_cons]
        exact List.mem_cons_of_mem _ hmem
      · have : r = ⟨db.nextId, oid, buildItemData db.products sid t⟩ := by simpa using hr
        rw [this]
        exact hmemt
    have hres := ih { db with
        nextId := db.nextId + 1,
        orderItems := db.orderItems ++ [⟨db.nextId, oid, buildItemData db.products sid t⟩] }
      hsplit.2 hclean2
    constructor
    · rw [hres.1]
      simp [List.filter_append, List.map_append]
    · rw [hres.2]
      simp [List.filter_append]

lemma filter_self_idem {α : Type} (l : List α) (p : α → Bool) :
    (l.filter p).filter p = l.filter p := by
  simp [List.filter_filter]

/-- C6.  After reconciling one transaction (order) — with the fetched line
items carrying pairwise distinct remote item ids, as the source schema's
primary key guarantees — the local LineItems owned by the transaction's
local id are exactly the items built from the latest fetched page: every
previously stored item of that order was deleted and the current ones
reinserted, so no duplicates and no stale leftovers remain; items owned by
other orders are untouched. -/
theorem transaction_line_items_replaced (db : LocalDb) (sid : String) (o : FetchedOrder)
    (hnd : (o.lineItems.map (fun it => it.itemId)).Nodup) :
    (((syncOrderRecord db sid o).1.orderItems.filter fun r =>
        decide (r.orderId = (syncOrderRecord db sid o).2)).map fun r => r.data)
      = o.lineItems.map (buildItemData db.products sid)
    ∧ ((syncOrderRecord db sid o).1.orderItems.filter fun r =>
        decide (r.orderId ≠ (syncOrderRecord db sid o).2))
      = db.orderItems.filter fun r => decide (r.orderId ≠ (syncOrderRecord db sid o).2) := by
  unfold syncOrderRecord
  dsimp only
  set u := upsertOrder db sid o.idNum (buildOrderData o)
    (buildCustomerLink db sid (buildOrderData o)) with hu
  have hclean : ∀ r ∈ (deleteOrderItems u.1 u.2).orderItems, r.orderId = u.2 →
      r.data.wooId ∉ o.lineItems.map (fun it => it.itemId) := by
    intro r hr hroid
    have hmem := List.of_mem_filter hr
    simp only [decide_eq_true_eq] at hmem
    exact absurd hroid hmem
  have hspec := createItems_spec sid u.2 o.lineItems (deleteOrderItems u.1 u.2) hnd hclean
  have h0 : ((deleteOrderItems u.1 u.2).orderItems.filter fun r => decide (r.orderId = u.2))
      = [] := by
    rw [List.filter_eq_nil_iff]
    intro a ha
    have := List.of_mem_filter ha
    simp only [decide_eq_true_eq] at this ⊢
    exact this
  have h1 : (deleteOrderItems u.1 u.2).products = db.products := by
    rw [deleteOrderItems_products, hu]
    exact upsertOrder_products db sid o.idNum (buildOrderData o)
      (buildCustomerLink db sid (buildOrderData o))
  constructor
  · rw [hspec.1, h0, h1]
    simp
  · rw [hspec.2]
    show ((u.1.orderItems.filter fun it => decide (it.orderId ≠ u.2)).filter
        fun r => decide (r.orderId ≠ u.2)) = _
    rw [filter_self_idem]
    have : u.1.orderItems = db.orderItems := by
      rw [hu]
      exact upsertOrder_orderItems db sid o.idNum (buildOrderData o)
        (buildCustomerLink db sid (buildOrderData o))
    rw [this]

/-- C6 (witness): a two-item order reconciled into a store that already held
a stale item for that order (remote id 99) and an item of another order —
afterwards the owned items are exactly the two fetched ones (remote ids 7
and 9), the stale item is gone, and the foreign order's item remains. -/
theorem transaction_line_items_replaced_witness :
    ((((syncOrderRecord
        ⟨10, [], [⟨4, "s1", 11, ⟨"#11", some 5, "wc-completed", none, "USD", none, none, none,
            some 5⟩, none⟩],
          [⟨7, 4, ⟨99, "Stale", some 1, some 1, some 1, none, none⟩⟩,
           ⟨8, 6, ⟨50, "Foreign", some 1, some 2, some 2, none, none⟩⟩], []⟩
        "s1"
        ⟨11, some "wc-completed", [("_order_total", "20")],
          [⟨7, some "I7", [("_qty", "2"), ("_line_total", "10")]⟩,
           ⟨9, some "I9", [("_qty", "1"), ("_line_total", "5")]⟩]⟩).1.orderItems.filter
        fun r => decide (r.orderId = 4)).map fun r => r.data)
      = [⟨7, some "I7", [("_qty", "2"), ("_line_total", "10")]⟩,
         ⟨9, some "I9", [("_qty", "1"), ("_line_total", "5")]⟩].map
          (buildItemData [] "s1"))
    ∧ ((syncOrderRecord
        ⟨10, [], [⟨4, "s1", 11, ⟨"#11", some 5, "wc-completed", none, "USD", none, none, none,
            some 5⟩, none⟩],
          [⟨7, 4, ⟨99, "Stale", some 1, some 1, some 1, none, none⟩⟩,
           ⟨8, 6, ⟨50, "Foreign", some 1, some 2, some 2, none, none⟩⟩], []⟩
        "s1"
        ⟨11, some "wc-completed", [("_order_total", "20")],
          [⟨7, some "I7", [("_qty", "2"), ("_line_total", "10")]⟩,
           ⟨9, some "I9", [("_qty", "1"), ("_line_total", "5")]⟩]⟩).1.orderItems.map
        fun r => (r.orderId, r.data.wooId))
      = [(6, 50), (4, 7), (4, 9)] := by
  constructor
  · have h := transaction_line_items_replaced
      ⟨10, [], [⟨4, "s1", 11, ⟨"#11", some 5, "wc-completed", none, "USD", none, none, none,
          some 5⟩, none⟩],
        [⟨7, 4, ⟨99, "Stale", some 1, some 1, some 1, none, none⟩⟩,
         ⟨8, 6, ⟨50, "Foreign", some 1, some 2, some 2, none, none⟩⟩], []⟩
      "s1"
      ⟨11, some "wc-completed", [("_order_total", "20")],
        [⟨7, some "I7", [("_qty", "2"), ("_line_total", "10")]⟩,
         ⟨9, some "I9", [("_qty", "1"), ("_line_total", "5")]⟩]⟩
      (by decide)
    exact h.1
  · decide

/-! ## Derived monetary fields (C8) -/

lemma orderMoneyOf_subtotal (meta : String → Option String) (t : ℚ)
    (h : (orderMoneyOf meta).total = some t) :
    (orderMoneyOf meta).subtotal = some (t - (orderMoneyOf meta).shippingTotal.getD 0
      - (orderMoneyOf meta).taxTotal.getD 0 + (orderMoneyOf meta).discountTotal.getD 0) := by
  unfold orderMoneyOf at h ⊢
  dsimp only at h ⊢
  rw [h]
  rfl

lemma itemMoneyOf_price (a b : Option String) (q : Int) (t : ℚ)
    (hq : (itemMoneyOf a b).quantity = some q) (hpos : 0 < q)
    (ht : (itemMoneyOf a b).total = some t) :
    (itemMoneyOf a b).price = some (t / (q : ℚ)) := by
  unfold itemMoneyOf at hq ht ⊢
  dsimp only at hq ht ⊢
  rw [hq, ht]
  simp [hpos]

/-- C8.  For every order and line item reconciled by the Direct-Datastore
order pass, the stored derived fields satisfy the stated equations: the
order's `subtotal` equals `total − shipping − tax + discount` with missing
components treated as zero (stated for orders whose `_order_total` parses,
i.e. is not NaN), and the item's unit `price` equals `total / quantity`
whenever the quantity is a positive number (the code stores 0 for a zero,
negative or NaN quantity, where the claimed division is meaningless). -/
theorem derived_money_equations (o : FetchedOrder) (P : List ProductRow) (sid : String)
    (it : FetchedItem) :
    (∀ t : ℚ, (buildOrderData o).total = some t →
      (buildOrderData o).subtotal = some (t - ((buildOrderData o).shippingTotal).getD 0
        - ((buildOrderData o).taxTotal).getD 0 + ((buildOrderData o).discountTotal).getD 0))
    ∧ (∀ (q : Int) (t : ℚ), (buildItemData P sid it).quantity = some q → 0 < q →
        (buildItemData P sid it).total = some t →
        (buildItemData P sid it).price = some (t / (q : ℚ))) := by
  constructor
  · intro t h
    exact orderMoneyOf_subtotal (buildMeta o.metaRows) t h
  · intro q t hq hpos ht
    exact itemMoneyOf_price (buildMeta it.metaRows "_qty") (buildMeta it.metaRows "_line_total")
      q t hq hpos ht

/-- C8 (witness): an order with shipping/tax/discount meta but no
`_order_total` (so `total` is 0) and an item with default quantity 1. -/
theorem derived_money_equations_witness :
    (buildOrderData ⟨11, none, [("_order_shipping", "5"), ("_order_tax", "10"),
        ("_cart_discount", "2")], []⟩).subtotal
      = some ((0 : ℚ)
        - ((buildOrderData ⟨11, none, [("_order_shipping", "5"), ("_order_tax", "10"),
            ("_cart_discount", "2")], []⟩).shippingTotal).getD 0
        - ((buildOrderData ⟨11, none, [("_order_shipping", "5"), ("_order_tax", "10"),
            ("_cart_discount", "2")], []⟩).taxTotal).getD 0
        + ((buildOrderData ⟨11, none, [("_order_shipping", "5"), ("_order_tax", "10"),
            ("_cart_discount", "2")], []⟩).discountTotal).getD 0)
    ∧ (buildItemData [] "s1" ⟨7, none, []⟩).price = some ((0 : ℚ) / ((1 : Int) : ℚ)) :=
  ⟨(derived_money_equations ⟨11, none, [("_order_shipping", "5"), ("_order_tax", "10"),
      ("_cart_discount", "2")], []⟩ [] "s1" ⟨7, none, []⟩).1 0 rfl,
   (derived_money_equations ⟨11, none, [("_order_shipping", "5"), ("_order_tax", "10"),
      ("_cart_discount", "2")], []⟩ [] "s1" ⟨7, none, []⟩).2 1 0 rfl (by decide) rfl⟩

/-! ## Sync orchestrator (orchestrator.ts `runUnifiedSync`)

The three per-entity result shapes mirror `SyncProductsResult`,
`SyncOrdersResult` and `SyncCustomersResult`; `Settled` is the outcome of
one task joined by `Promise.allSettled`; `SyncResult` mirrors the
orchestrator's aggregate (wall-clock `duration` omitted). -/

structure SyncProductsResult where
  fetched : Nat
  created : Nat
  updated : Nat
  errors : Nat
deriving Repr, DecidableEq

structure SyncOrdersResult where
  fetched : Nat
  created : Nat
  updated : Nat
  orderItemsCreated : Nat
  errors : Nat
deriving Repr, DecidableEq

structure SyncCustomersResult where
  registeredFetched : Nat
  guestsFetched : Nat
  created : Nat
  updated : Nat
  errors : Nat
deriving Repr, DecidableEq

inductive Settled (α : Type) where
  | fulfilled (value : α)
  | rejected (reason : String)
deriving Repr, DecidableEq

structure ProductsReport where
  count : Nat
  created : Option Nat
  updated : Option Nat
deriving Repr, DecidableEq

structure OrdersReport where
  count : Nat
  created : Option Nat
  updated : Option Nat
  orderItemsCreated : Option Nat
deriving Repr, DecidableEq

structure CustomersReport where
  count : Nat
  created : Option Nat
  updated : Option Nat
deriving Repr, DecidableEq

structure SyncResult where
  products : ProductsReport
  orders : OrdersReport
  customers : CustomersReport
  method : String
  errors : List String
deriving Repr, DecidableEq

/-- The result-processing section of the `db` branch: each fulfilled task
fills its entity report, each rejected task leaves the zero report and
pushes its reason onto the error list (products, then orders, then
customers, matching the push order of the source). -/
def processDbResults (pr : Settled SyncProductsResult) (odr : Settled SyncOrdersResult)
    (cr : Settled SyncCustomersResult) : SyncResult :=
  let products : ProductsReport :=
    match pr with
    | .fulfilled v => ⟨v.fetched, some v.created, some v.updated⟩
    | .rejected _ => ⟨0, none, none⟩
  let perr : List String :=
    match pr with
    | .fulfilled _ => []
    | .rejected r => ["Products sync failed: " ++ r]
  let orders : OrdersReport :=
    match odr with
    | .fulfilled v => ⟨v.fetched, some v.created, some v.updated, some v.orderItemsCreated⟩
    | .rejected _ => ⟨0, none, none, none⟩
  let oerr : List String :=
    match odr with
    | .fulfilled _ => []
    | .rejected r => ["Orders sync failed: " ++ r]
  let customers : CustomersReport :=
    match cr with
    | .fulfilled v => ⟨v.registeredFetched + v.guestsFetched, some v.created, some v.updated⟩
    | .rejected _ => ⟨0, none, none⟩
  let cerr : List String :=
    match cr with
    | .fulfilled _ => []
    | .rejected r => ["Customers sync failed: " ++ r]
  ⟨products, orders, customers, "db", perr ++ oerr ++ cerr⟩

/-- The store configuration consumed by the `db` branch of
`runUnifiedSync` (only the fields the modelled path reads). -/
structure StoreCfg where
  dbHost : Option String
  dbUser : Option String
  dbPassword : Option String
  dbName : Option String
deriving Repr, DecidableEq

/-- The check `!store.dbHost || !store.dbUser || !store.dbPassword || !store.dbName`
fails the credential check (empty strings are falsy). -/
def dbCredsPresent (s : StoreCfg) : Prop :=
  (jsTruthyStr s.dbHost).isSome ∧ (jsTruthyStr s.dbUser).isSome ∧
  (jsTruthyStr s.dbPassword).isSome ∧ (jsTruthyStr s.dbName).isSome

instance (s : StoreCfg) : Decidable (dbCredsPresent s) := by
  unfold dbCredsPresent; infer_instance

/-- The `db` branch of `runUnifiedSync`: load the store (throwing when it is
missing), validate credentials (throwing a ConfigurationError before any
fan-out), then join the three reconciliation tasks with `allSettled` and
aggregate.  `Except.error` models the thrown exception (rethrown by the
orchestrator's catch block); the three `Settled` arguments are the outcomes
of the three tasks. -/
def runUnifiedSyncDb (store : Option StoreCfg) (pr : Settled SyncProductsResult)
    (odr : Settled SyncOrdersResult) (cr : Settled SyncCustomersResult) :
    Except String SyncResult :=
  match store with
  | none => .error "Store not found"
  | some s =>
    if dbCredsPresent s then .ok (processDbResults pr odr cr)
    else .error "Database credentials are incomplete"

/-! ## Progress tracker and background route
    (src/app/api/sync/background/route.ts) -/

inductive SyncStatus where
  | running
  | completed
  | error
deriving Repr, DecidableEq

/-- One `syncProgress` map entry. -/
structure ProgressEntry where
  status : SyncStatus
  progress : Nat
  message : String
  startTime : Nat
  endTime : Option Nat
  error : Option String
deriving Repr, DecidableEq

/-- The final update `performBackgroundSync` applies to the tracked entry:
a normally returned report marks the run `completed` (whatever its error
list or per-record error counters hold), a thrown error marks it `error`.
`t` stands for `Date.now()` at completion. -/
def performBackgroundSyncModel (entry : ProgressEntry) (outcome : Except String SyncResult)
    (t : Nat) : ProgressEntry :=
  match outcome with
  | .ok result =>
    { entry with
      progress := 100,
      message := "Sync complete! Products: " ++ toString result.products.count
        ++ ", Orders: " ++ toString result.orders.count
        ++ ", Customers: " ++ toString result.customers.count,
      status := .completed,
      endTime := some t }
  | .error e =>
    { entry with status := .error, error := some e, endTime := some t }

/-- The tracker state: the `syncProgress` map plus, for each connection,
the number of background sync tasks currently executing (a modelling
device for "active run" — the map alone cannot distinguish a run that is
executing from a stale entry). -/
structure TrackerState where
  entries : String → Option ProgressEntry
  active : String → Nat

/-- The body of `POST` past the running-guard: install a fresh `running`
entry and launch the (un-awaited) background task. -/
def startRun (st : TrackerState) (sid : String) (t : Nat) : TrackerState × String :=
  ({ entries := fun s => if s = sid then
        some ⟨.running, 0, "Starting sync...", t, none, none⟩
      else st.entries s,
     active := fun s => if s = sid then st.active s + 1 else st.active s },
   "Background sync started")

/-- The `POST` handler for an authorized owner of an existing store: if the
tracked status for the connection is `running`, answer "Sync already
running" and change nothing; otherwise initialize the entry and start the
background sync.  The guard and the map write run in one synchronous
section — no `await` separates them — so the step is atomic. -/
def postStart (st : TrackerState) (sid : String) (t : Nat) : TrackerState × String :=
  match st.entries sid with
  | some e =>
    if e.status = .running then (st, "Sync already running")
    else startRun st sid t
  | none => startRun st sid t

/-- Completion of the background task for `sid`: apply the final entry
update and retire the task. -/
def finishRun (st : TrackerState) (sid : String) (outcome : Except String SyncResult)
    (t : Nat) : TrackerState :=
  { entries := fun s => if s = sid then
      (st.entries s).map (fun e => performBackgroundSyncModel e outcome t)
    else st.entries s,
    active := fun s => if s = sid then st.active s - 1 else st.active s }

/-- A progress-callback update from inside the running task (progress and
message only — the status is untouched). -/
def callbackUpdate (st : TrackerState) (sid : String) (p : Nat) (m : String) : TrackerState :=
  { st with entries := fun s => if s = sid then
      (st.entries s).map (fun e => { e with progress := p, message := m })
    else st.entries s }

/-- The events that mutate the tracker: a start request for any connection
at any time; a callback or a completion, which only the running task for
that connection can produce (`0 < active`). -/
inductive TrackerStep : TrackerState → TrackerState → Prop where
  | start (st : TrackerState) (sid : String) (t : Nat) :
      TrackerStep st (postStart st sid t).1
  | callback (st : TrackerState) (sid : String) (p : Nat) (m : String)
      (h : 0 < st.active sid) :
      TrackerStep st (callbackUpdate st sid p m)
  | finish (st : TrackerState) (sid : String) (outcome : Except String SyncResult) (t : Nat)
      (h : 0 < st.active sid) :
      TrackerStep st (finishRun st sid outcome t)

/-- States reachable from the initial empty tracker. -/
inductive Reachable : TrackerState → Prop where
  | init : Reachable ⟨fun _ => none, fun _ => 0⟩
  | step {st st2 : TrackerState} : Reachable st → TrackerStep st st2 → Reachable st2

/-- Tracker invariant: at most one active run per connection, and a run is
active exactly when the tracked status is `running`. -/
def TrackerInv (st : TrackerState) : Prop :=
  ∀ sid, st.active sid ≤ 1 ∧
    (st.active sid = 1 ↔ ∃ e, st.entries sid = some e ∧ e.status = .running)

lemma trackerInv_init : TrackerInv ⟨fun _ => none, fun _ => 0⟩ := by
  intro sid
  refine ⟨by simp, ?_, ?_⟩
  · intro h; simp at h
  · rintro ⟨e, he, _⟩; simp at he

lemma performBackgroundSyncModel_status_ne_running (entry : ProgressEntry)
    (outcome : Except String SyncResult) (t : Nat) :
    (performBackgroundSyncModel entry outcome t).status ≠ .running := by
  cases outcome <;> simp [performBackgroundSyncModel]

lemma trackerInv_startRun (st : TrackerState) (sid : String) (t : Nat)
    (h : TrackerInv st) (hz : st.active sid = 0) :
    TrackerInv (startRun st sid t).1 := by
  intro s
  by_cases hcase : s = sid
  · subst hcase
    unfold startRun
    refine ⟨by simp [hz], ?_, ?_⟩
    · intro _
      exact ⟨⟨.running, 0, "Starting sync...", t, none, none⟩, by simp, rfl⟩
    · intro _
      simp [hz]
  · unfold startRun
    simp only [hcase, if_false]
    exact h s

lemma trackerInv_step {st st2 : TrackerState} (h : TrackerInv st)
    (hs : TrackerStep st st2) : TrackerInv st2 := by
  cases hs with
  | start sid t =>
    unfold postStart
    cases hentry : st.entries sid with
    | some e =>
      by_cases hrun : e.status = .running
      · simp [hrun]
        exact h
      · have hne : st.active sid ≠ 1 := by
          intro h1
          rcases (h sid).2.mp h1 with ⟨e2, he2, hrun2⟩
          rw [hentry] at he2
          exact hrun (by cases he2; exact hrun2)
        have hz : st.active sid = 0 :=
          Nat.lt_one_iff.mp (Nat.lt_of_le_of_ne (h sid).1 hne)
        simp [hrun]
        exact trackerInv_startRun st sid t h hz
    | none =>
      have hne : st.active sid ≠ 1 := by
        intro h1
        rcases (h sid).2.mp h1 with ⟨e2, he2, _⟩
        rw [hentry] at he2
        exact Option.noConfusion he2
      have hz : st.active sid = 0 :=
        Nat.lt_one_iff.mp (Nat.lt_of_le_of_ne (h sid).1 hne)
      exact trackerInv_startRun st sid t h hz
  | callback sid p m hpos =>
    intro s
    by_cases hcase : s = sid
    · subst hcase
      unfold callbackUpdate
      refine ⟨(h s).1, ?_, ?_⟩
      · intro h1
        rcases (h s).2.mp h1 with ⟨e, he, hrun⟩
        exact ⟨{ e with progress := p, message := m }, by simp [he], hrun⟩
      · rintro ⟨e, he, hrun⟩
        simp only [if_pos rfl] at he
        rcases hmem : st.entries s with _ | e0
        · rw [hmem] at he; simp at he
        · rw [hmem] at he
          simp at he
          refine (h s).2.mpr ⟨e0, hmem, ?_⟩
          have : e.status = e0.status := by rw [← he]
          rw [← this]; exact hrun
    · unfold callbackUpdate
      simp only [hcase, if_false]
      exact h s
  | finish sid outcome t hpos =>
    intro s
    by_cases hcase : s = sid
    · subst hcase
      have hone : st.active s = 1 := Nat.le_antisymm (h s).1 hpos
      unfold finishRun
      refine ⟨by simp [hone], ?_, ?_⟩
      · intro h1; simp [hone] at h1
      · rintro ⟨e, he, hrun⟩
        simp only [if_pos rfl] at he
        rcases hmem : st.entries s with _ | e0
        · rw [hmem] at he; simp at he
        · rw [hmem] at he
          simp at he
          exfalso
          apply performBackgroundSyncModel_status_ne_running e0 outcome t
          rw [he]
          exact hrun
    · unfold finishRun
      simp only [hcase, if_false]
      exact h s

lemma trackerInv_of_reachable {st : TrackerState} (h : Reachable st) : TrackerInv st := by
  induction h with
  | init => exact trackerInv_init
  | step _ hs ih => exact trackerInv_step ih hs

/-- C5.  In every reachable tracker state, at most one sync run is active
per connection, and a start request arriving while the tracked status for
that connection is `running` is a no-op: the state — including the existing
progress entry — is unchanged and the response is "Sync already running",
so no second run is launched. -/
theorem no_double_start (st : TrackerState) (h : Reachable st) :
    (∀ sid, st.active sid ≤ 1)
    ∧ (∀ sid e t, st.entries sid = some e → e.status = .running →
        postStart st sid t = (st, "Sync already running")) := by
  have hinv := trackerInv_of_reachable h
  refine ⟨fun sid => (hinv sid).1, ?_⟩
  intro sid e t he hst
  unfold postStart
  rw [he]
  simp [hst]

/-- C5 (witness): after one start on a fresh tracker, a second start for the
same connection leaves the state untouched and reports "already running",
and the active-run count is (at most) one. -/
theorem no_double_start_witness :
    postStart (postStart ⟨fun _ => none, fun _ => 0⟩ "s1" 3).1 "s1" 9
      = ((postStart ⟨fun _ => none, fun _ => 0⟩ "s1" 3).1, "Sync already running")
    ∧ (postStart ⟨fun _ => none, fun _ => 0⟩ "s1" 3).1.active "s1" ≤ 1 := by
  have h := no_double_start (postStart ⟨fun _ => none, fun _ => 0⟩ "s1" 3).1
    (Reachable.step Reachable.init (TrackerStep.start _ "s1" 3))
  exact ⟨h.2 "s1" ⟨.running, 0, "Starting sync...", 3, none, none⟩ 9 (by decide) rfl,
    h.1 "s1"⟩

/-- C3.  Whenever the credential check passes, the run aggregates all three
task outcomes: it returns a report (never throws), each fulfilled task's
counts appear in its entity section of the report, and each rejected task
leaves only the zero section plus its reason in the report's error list —
one task's failure never removes the others' results. -/
theorem reconciler_partial_failure_isolated (s : StoreCfg) (h : dbCredsPresent s)
    (pr : Settled SyncProductsResult) (odr : Settled SyncOrdersResult)
    (cr : Settled SyncCustomersResult) :
    ∃ res, runUnifiedSyncDb (some s) pr odr cr = .ok res
      ∧ (∀ v, pr = .fulfilled v → res.products = ⟨v.fetched, some v.created, some v.updated⟩)
      ∧ (∀ r, pr = .rejected r → res.products = ⟨0, none, none⟩
          ∧ ("Products sync failed: " ++ r) ∈ res.errors)
      ∧ (∀ v, odr = .fulfilled v →
          res.orders = ⟨v.fetched, some v.created, some v.updated, some v.orderItemsCreated⟩)
      ∧ (∀ r, odr = .rejected r → res.orders = ⟨0, none, none, none⟩
          ∧ ("Orders sync failed: " ++ r) ∈ res.errors)
      ∧ (∀ v, cr = .fulfilled v →
          res.customers = ⟨v.registeredFetched + v.guestsFetched, some v.created, some v.updated⟩)
      ∧ (∀ r, cr = .rejected r → res.customers = ⟨0, none, none⟩
          ∧ ("Customers sync failed: " ++ r) ∈ res.errors) := by
  refine ⟨processDbResults pr odr cr, by simp [runUnifiedSyncDb, h], ?_, ?_, ?_, ?_, ?_, ?_⟩
  · intro v hv; subst hv; simp [processDbResults]
  · intro r hr; subst hr; simp [processDbResults]
  · intro v hv; subst hv; simp [processDbResults]
  · intro r hr; subst hr; simp [processDbResults]
  · intro v hv; subst hv; simp [processDbResults]
  · intro r hr; subst hr; simp [processDbResults]

/-- C3 (witness): products and customers succeed, the orders task rejects —
both surviving reports appear and the orders failure is only an error-list
entry. -/
theorem reconciler_partial_failure_isolated_witness :
    ∃ res, runUnifiedSyncDb (some ⟨some "h", some "u", some "p", some "n"⟩)
        (Settled.fulfilled ⟨2, 2, 0, 0⟩) (Settled.rejected "boom")
        (Settled.fulfilled ⟨1, 0, 0, 1, 0⟩) = .ok res
      ∧ res.products = ⟨2, some 2, some 0⟩
      ∧ res.customers = ⟨1, some 0, some 1⟩
      ∧ ("Orders sync failed: boom") ∈ res.errors := by
  obtain ⟨res, h1, h2, _, _, h5, h6, _⟩ :=
    reconciler_partial_failure_isolated ⟨some "h", some "u", some "p", some "n"⟩ (by decide)
      (Settled.fulfilled ⟨2, 2, 0, 0⟩) (Settled.rejected "boom")
      (Settled.fulfilled ⟨1, 0, 0, 1, 0⟩)
  exact ⟨res, h1, h2 _ rfl, h6 _ rfl, (h5 _ rfl).2⟩

/-- C4 (counterexample).  The claim says the polled entry ends `error`
whenever an entity-level (whole-Reconciler) failure occurred.  Concretely:
with valid credentials and the orders task rejecting with "boom", the run
returns a report whose error list records the failure, yet the final entry
status is `completed`, not `error`. -/
theorem entity_failure_reports_completed :
    runUnifiedSyncDb (some ⟨some "h", some "u", some "p", some "n"⟩)
        (Settled.fulfilled ⟨2, 2, 0, 0⟩) (Settled.rejected "boom")
        (Settled.fulfilled ⟨1, 0, 0, 1, 0⟩)
      = .ok ⟨⟨2, some 2, some 0⟩, ⟨0, none, none, none⟩, ⟨1, some 0, some 1⟩, "db",
          ["Orders sync failed: boom"]⟩
    ∧ (performBackgroundSyncModel ⟨.running, 0, "Starting sync...", 3, none, none⟩
        (.ok ⟨⟨2, some 2, some 0⟩, ⟨0, none, none, none⟩, ⟨1, some 0, some 1⟩, "db",
          ["Orders sync failed: boom"]⟩) 9).status = SyncStatus.completed :=
  ⟨rfl, rfl⟩

/-- C4 (amended).  The polled entry for a run ends `error` exactly when a
top-level failure occurred (the orchestrator threw: store missing,
credentials incomplete, or another pre-aggregation exception); a run whose
report came back — even with whole-Reconciler failures in its error list or
nonzero per-record error counters — ends `completed`, and entity-level
failures alone never make the orchestrator throw once the credential check
passed. -/
theorem run_status_error_iff_toplevel (entry : ProgressEntry)
    (outcome : Except String SyncResult) (t : Nat) :
    ((performBackgroundSyncModel entry outcome t).status = .error ↔
      ∃ e, outcome = .error e)
    ∧ (∀ res, outcome = .ok res →
        (performBackgroundSyncModel entry outcome t).status = .completed)
    ∧ (∀ (s : StoreCfg) pr odr cr, dbCredsPresent s →
        ∃ res, runUnifiedSyncDb (some s) pr odr cr = .ok res) := by
  refine ⟨?_, ?_, ?_⟩
  · cases outcome <;> simp [performBackgroundSyncModel]
  · intro res h; subst h; rfl
  · intro s pr odr cr hc
    exact ⟨processDbResults pr odr cr, by simp [runUnifiedSyncDb, hc]⟩

/-- C4 (witness): a returned report ends `completed`; a thrown
configuration error ends `error`. -/
theorem run_status_error_iff_toplevel_witness :
    (performBackgroundSyncModel ⟨.running, 0, "Starting sync...", 3, none, none⟩
      (.ok ⟨⟨0, none, none⟩, ⟨0, none, none, none⟩, ⟨0, none, none⟩, "db", []⟩) 9).status
      = SyncStatus.completed
    ∧ ((performBackgroundSyncModel ⟨.running, 0, "Starting sync...", 3, none, none⟩
        (.error "Store not found") 9).status = SyncStatus.error ↔
        ∃ e, (Except.error "Store not found" : Except String SyncResult) = .error e) :=
  ⟨(run_status_error_iff_toplevel ⟨.running, 0, "Starting sync...", 3, none, none⟩
      (.ok ⟨⟨0, none, none⟩, ⟨0, none, none, none⟩, ⟨0, none, none⟩, "db", []⟩) 9).2.1 _ rfl,
   (run_status_error_iff_toplevel ⟨.running, 0, "Starting sync...", 3, none, none⟩
      (.error "Store not found") 9).1⟩

end Spec2Proof
